import Mathlib

/-!
Shallow embedding of `CachedSandbox`
(`packages/server/shared/src/lib/flows/sandbox/caching/cached-sandbox.ts`).

The class owns one cached sandbox directory, keyed by an opaque string.  Its
mutable fields are `_state : CachedSandboxState`, `_activeSandboxCount` and
`_lastUsedAt`.  External collaborators (filesystem `rm`/`mkdir`,
`packageManager.init`, `pieceManager.install`, `engineInstaller.install`,
`codeBuilder.processCodeStep`, `enrichErrorContext`) are modelled by an
environment recording the outcome each call would produce; every collaborator
invocation is also recorded in an event trace so that claims about which
collaborators run, and in which order, can be stated.

Timestamps are natural numbers (`dayjs()` readings supplied by the
environment).  The active-sandbox count is an integer so that the
"never negative" invariant is a real statement, not a typing artifact.

JavaScript promise semantics for `Promise.all` over the launched code-build
jobs is modelled by giving each job a finish time and a result: the combined
promise settles at the earliest rejection time when some job rejects (with
that rejection), and otherwise at the latest finish time, fulfilled.  This is
the standard fail-fast behaviour of `Promise.all`.
-/

/-- Lifecycle states of a cached sandbox slot.  Modelled from the spec: the
file `cached-sandbox-state.ts` is not part of the provided sources, but its
three members `CREATED`, `INITIALIZED`, `READY` are fixed by their uses in
`cached-sandbox.ts` and by the spec's `Created | Initialized | Ready`. -/
inductive CachedSandboxState where
  | CREATED
  | INITIALIZED
  | READY
deriving DecidableEq, Repr

/-- Kind of an error, per the spec's taxonomy (§7).  Collaborator failures
carry whatever kind the collaborator produced; the not-initialized error is
produced by `prepare` itself. -/
inductive ErrKind where
  | notInitialized
  | storage
  | build
  | other (msg : String)
deriving DecidableEq, Repr

/-- Opaque source code payload of a code artifact (`SourceCode` in
`@activepieces/shared`, external to this core). -/
abbrev SourceCode := String

/-- One code artifact: `{ name: string, sourceCode: SourceCode }`. -/
structure CodeArtifact where
  name : String
  sourceCode : SourceCode
deriving DecidableEq, Repr

/-- A piece package reference (`PiecePackage`), opaque to this core. -/
abbrev Piece := String

/-- The diagnostic context value built in `prepare`'s catch block:
`{ args, state, activeSandboxes, key, lastUsedAt, isInUse, path }`. -/
structure PrepareCtx where
  argsPieces : List Piece
  argsCodeSteps : List CodeArtifact
  state : CachedSandboxState
  activeSandboxes : Int
  key : String
  lastUsedAt : Nat
  inUse : Bool
  path : String
deriving DecidableEq, Repr

/-- An error value: a kind plus the context entries attached so far.  A fresh
collaborator error has an empty context list. -/
structure Err where
  kind : ErrKind
  ctx : List (String × PrepareCtx)
deriving DecidableEq, Repr

/-- Modelled from the spec: `enrichErrorContext` (external, in
`exception-handler.ts`, not among the provided sources) "attaches structured
context (key, state, counts, timestamps, path, call arguments) to a failure
without changing its kind". -/
def enrichErrorContext (error : Err) (key : String) (value : PrepareCtx) : Err :=
  { error with ctx := error.ctx ++ [(key, value)] }

/-- In-memory fields of a `CachedSandbox`, plus the existence of its on-disk
directory (the only filesystem fact the class manipulates). -/
structure Slot where
  key : String
  state : CachedSandboxState
  activeSandboxCount : Int
  lastUsedAt : Nat
  dirExists : Bool
deriving DecidableEq, Repr

/-- `CachedSandbox.CACHE_PATH`: the configured cache root, defaulting to
`resolve('dist', 'cache')`.  Read once per process; its concrete value never
matters to the claims. -/
def CACHE_PATH : String := "dist/cache"

/-- The constructor: stores the key; `_state = CREATED`,
`_activeSandboxCount = 0`, `_lastUsedAt = dayjs()` (the construction-time
clock reading `ctorNow`).  `dirExists0` is whatever is on disk already. -/
def mkSlot (key : String) (ctorNow : Nat) (dirExists0 : Bool) : Slot :=
  { key := key
    state := CachedSandboxState.CREATED
    activeSandboxCount := 0
    lastUsedAt := ctorNow
    dirExists := dirExists0 }

namespace Slot

/-- `path()`: `` `${CachedSandbox.CACHE_PATH}/sandbox/${this.key}` ``. -/
def path (s : Slot) : String :=
  CACHE_PATH ++ "/sandbox/" ++ s.key

/-- `lastUsedAt()`. -/
def lastUsedAtFn (s : Slot) : Nat :=
  s.lastUsedAt

/-- `isInUse()`: `this._activeSandboxCount > 0`. -/
def isInUse (s : Slot) : Bool :=
  s.activeSandboxCount > 0

end Slot

/-- Outcomes of the two filesystem calls made by `init`:
`deletePathIfExists` (`rm` with `recursive: true, force: true`, so absence is
not a failure) and `mkdir` (`recursive: true`). -/
structure InitEnv where
  rmResult : Except Err Unit
  mkdirResult : Except Err Unit

/-- `init()`: under the lock, return immediately unless `_state === CREATED`;
otherwise delete the directory tree, recreate it, and set
`_state = INITIALIZED`.  A filesystem failure propagates as-is (there is no
try/catch in `init`). -/
def init (s : Slot) (env : InitEnv) : Except Err Unit × Slot :=
  if s.state ≠ CachedSandboxState.CREATED then
    (Except.ok (), s)
  else
    match env.rmResult with
    | Except.error e => (Except.error e, s)
    | Except.ok _ =>
      let s1 : Slot := { s with dirExists := false }
      match env.mkdirResult with
      | Except.error e => (Except.error e, s1)
      | Except.ok _ =>
        (Except.ok (),
          { s1 with dirExists := true, state := CachedSandboxState.INITIALIZED })

/-- `decrementActiveSandboxCount()`: under the lock, no-op at zero, otherwise
decrement by one. -/
def decrementActiveSandboxCount (s : Slot) : Slot :=
  if s.activeSandboxCount = 0 then s
  else { s with activeSandboxCount := s.activeSandboxCount - 1 }

deriving instance DecidableEq for Except

/-- The settled outcome one launched code-build job would have: the time at
which the underlying promise settles and whether it fulfills or rejects. -/
structure BuildOutcome where
  finishTime : Nat
  result : Except Err Unit
deriving DecidableEq, Repr

/-- Environment of one `prepare` call: the clock reading taken for
`_lastUsedAt`, and the outcome each collaborator call would produce. -/
structure PrepareEnv where
  now : Nat
  pkgInit : Except Err Unit
  pieceInstall : Except Err Unit
  engineInstall : Except Err Unit
  codeBuild : CodeArtifact → BuildOutcome

/-- One collaborator invocation, in program order.  `codeBuildLaunch` records
that a build task for the artifact was launched (the `map` in
`buildCodeArchives` starts every job before `Promise.all` is awaited). -/
inductive Event where
  | pkgInit (path : String)
  | pieceInstall (path : String) (pieces : List Piece)
  | engineInstall (path : String)
  | codeBuildLaunch (name : String) (path : String)
deriving DecidableEq, Repr

/-- Among the launched jobs, the rejection that settles first (ties broken by
launch order), if any.  `Promise.all` rejects with exactly this rejection. -/
def earliestRejection : List BuildOutcome → Option BuildOutcome
  | [] => none
  | j :: rest =>
    match j.result, earliestRejection rest with
    | Except.ok _, r => r
    | Except.error _, none => some j
    | Except.error _, some k =>
      if j.finishTime ≤ k.finishTime then some j else some k

/-- The latest finish time among the launched jobs. -/
def maxFinish (jobs : List BuildOutcome) : Nat :=
  jobs.foldr (fun j m => max j.finishTime m) 0

/-- `Promise.all` over the launched jobs: settles at the earliest rejection
(fail-fast) when some job rejects, else fulfills once every job has
finished.  Returns the settle time and the settled result. -/
def promiseAll (jobs : List BuildOutcome) : Nat × Except Err Unit :=
  match earliestRejection jobs with
  | some j => (j.finishTime, j.result)
  | none => (maxFinish jobs, Except.ok ())

/-- `buildCodeArchives(codeArchives)`: launch one `processCodeStep` job per
archive (all launched before anything is awaited), then await `Promise.all`.
Returns the launch events, the settle time, and the settled result. -/
def buildCodeArchives (s : Slot) (env : PrepareEnv) (codeArchives : List CodeArtifact) :
    List Event × Nat × Except Err Unit :=
  let buildJobs := codeArchives.map env.codeBuild
  (codeArchives.map (fun a => Event.codeBuildLaunch a.name s.path),
    promiseAll buildJobs)

/-- Body of `prepare`'s `lock.runExclusive` critical section, before the
catch block: the not-initialized check, the unconditional bookkeeping
(`_activeSandboxCount += 1`, `_lastUsedAt = dayjs()`), the already-prepared
early return, then the four build-sequence steps in order. -/
def prepareInner (s : Slot) (env : PrepareEnv) (pieces : List Piece)
    (codeSteps : List CodeArtifact) : Except Err Unit × Slot × List Event :=
  if s.state = CachedSandboxState.CREATED then
    (Except.error { kind := ErrKind.notInitialized, ctx := [] }, s, [])
  else
    let s1 : Slot := { s with
      activeSandboxCount := s.activeSandboxCount + 1
      lastUsedAt := env.now }
    if s1.state ≠ CachedSandboxState.INITIALIZED then
      (Except.ok (), s1, [])
    else
      match env.pkgInit with
      | Except.error e => (Except.error e, s1, [Event.pkgInit s1.path])
      | Except.ok _ =>
        match env.pieceInstall with
        | Except.error e =>
          (Except.error e, s1,
            [Event.pkgInit s1.path, Event.pieceInstall s1.path pieces])
        | Except.ok _ =>
          match env.engineInstall with
          | Except.error e =>
            (Except.error e, s1,
              [Event.pkgInit s1.path, Event.pieceInstall s1.path pieces,
                Event.engineInstall s1.path])
          | Except.ok _ =>
            let built := buildCodeArchives s1 env codeSteps
            let evs := Event.pkgInit s1.path ::
              Event.pieceInstall s1.path pieces ::
              Event.engineInstall s1.path :: built.1
            match built.2.2 with
            | Except.error e => (Except.error e, s1, evs)
            | Except.ok _ =>
              (Except.ok (),
                { s1 with state := CachedSandboxState.READY }, evs)

/-- The diagnostic context value `prepare`'s catch block builds from the
current (post-mutation) fields and the call arguments. -/
def prepareContextValue (s : Slot) (pieces : List Piece)
    (codeSteps : List CodeArtifact) : PrepareCtx :=
  { argsPieces := pieces
    argsCodeSteps := codeSteps
    state := s.state
    activeSandboxes := s.activeSandboxCount
    key := s.key
    lastUsedAt := s.lastUsedAtFn
    inUse := s.isInUse
    path := s.path }

/-- `prepare({ pieces, codeSteps = [] })`: an omitted `codeSteps` defaults to
the empty list; any error thrown inside the critical section is enriched with
the `[CachedSandbox#prepare]` context and rethrown. -/
def prepare (s : Slot) (env : PrepareEnv) (pieces : List Piece)
    (codeStepsArg : Option (List CodeArtifact)) :
    Except Err Unit × Slot × List Event :=
  let codeSteps := codeStepsArg.getD []
  match prepareInner s env pieces codeSteps with
  | (Except.ok _, s2, evs) => (Except.ok (), s2, evs)
  | (Except.error e, s2, evs) =>
    (Except.error
      (enrichErrorContext e "[CachedSandbox#prepare]"
        (prepareContextValue s2 pieces codeSteps)), s2, evs)

/-- One public mutating operation on a slot, with the environment its
collaborator calls would see. -/
inductive Op where
  | opInit (env : InitEnv)
  | opPrepare (env : PrepareEnv) (pieces : List Piece)
      (codeStepsArg : Option (List CodeArtifact))
  | opRelease

/-- Apply one operation to the slot state (results and traces dropped). -/
def stepOp (s : Slot) : Op → Slot
  | Op.opInit env => (init s env).2
  | Op.opPrepare env pieces codeStepsArg => (prepare s env pieces codeStepsArg).2.1
  | Op.opRelease => decrementActiveSandboxCount s

/-- Run a sequence of operations from a starting slot. -/
def runOps (s : Slot) (ops : List Op) : Slot :=
  List.foldl stepOp s ops

/-- `true` iff the result is an error. -/
def isErr : Except Err Unit → Bool
  | Except.error _ => true
  | Except.ok _ => false

/-- Whether an operation is a `prepare` call. -/
def isPrepareOp : Op → Bool
  | Op.opPrepare _ _ _ => true
  | _ => false

/-- Every job settled no later than the combined promise: the "all launched
tasks were awaited to completion before the result was reported" property. -/
def awaitedAll (jobs : List BuildOutcome) (settleTime : Nat) : Prop :=
  ∀ j ∈ jobs, j.finishTime ≤ settleTime

/-- The full build-sequence trace of a successful first `prepare`. -/
def fullTrace (s : Slot) (pieces : List Piece) (codeSteps : List CodeArtifact) :
    List Event :=
  Event.pkgInit s.path :: Event.pieceInstall s.path pieces ::
    Event.engineInstall s.path ::
    codeSteps.map (fun a => Event.codeBuildLaunch a.name s.path)

/-- Whether an event is the launch of a code-build task. -/
def isCodeBuildEv : Event → Bool
  | Event.codeBuildLaunch _ _ => true
  | _ => false

/-- All four build-sequence steps of one `prepare` call succeed in the given
environment. -/
def buildOk (env : PrepareEnv) (codeSteps : List CodeArtifact) : Bool :=
  !isErr env.pkgInit && !isErr env.pieceInstall && !isErr env.engineInstall &&
    !isErr (promiseAll (codeSteps.map env.codeBuild)).2

/-- A fresh build error with no context attached, as a collaborator throws it. -/
def errBuild : Err := { kind := ErrKind.build, ctx := [] }

/-- A fresh storage error with no context attached, as `rm`/`mkdir` throws it. -/
def errStorage : Err := { kind := ErrKind.storage, ctx := [] }

/-- A freshly constructed slot (state `CREATED`). -/
def slotCreated : Slot := mkSlot "k" 0 false

/-- A slot that has been initialized but not yet prepared. -/
def slotInitialized : Slot :=
  { key := "k"
    state := CachedSandboxState.INITIALIZED
    activeSandboxCount := 0
    lastUsedAt := 0
    dirExists := true }

/-- A slot that is `READY` with two active borrowers. -/
def slotReadyTwo : Slot :=
  { key := "k"
    state := CachedSandboxState.READY
    activeSandboxCount := 2
    lastUsedAt := 5
    dirExists := true }

/-- An environment in which every collaborator call succeeds. -/
def envAllOk : PrepareEnv :=
  { now := 7
    pkgInit := Except.ok ()
    pieceInstall := Except.ok ()
    engineInstall := Except.ok ()
    codeBuild := fun _ => { finishTime := 0, result := Except.ok () } }

/-- An environment in which the dependency-context init fails. -/
def envPkgFail : PrepareEnv :=
  { now := 7
    pkgInit := Except.error errBuild
    pieceInstall := Except.ok ()
    engineInstall := Except.ok ()
    codeBuild := fun _ => { finishTime := 0, result := Except.ok () } }

/-- An environment in which the installs succeed, the build of artifact `"b"`
rejects at time 1, and every other build fulfills at time 5. -/
def envBuildFail : PrepareEnv :=
  { now := 7
    pkgInit := Except.ok ()
    pieceInstall := Except.ok ()
    engineInstall := Except.ok ()
    codeBuild := fun a =>
      if a.name = "b" then { finishTime := 1, result := Except.error errBuild }
      else { finishTime := 5, result := Except.ok () } }

/-- A code artifact whose build fulfills (slowly) in `envBuildFail`. -/
def artA : CodeArtifact := { name := "a", sourceCode := "sa" }

/-- The code artifact whose build rejects (quickly) in `envBuildFail`. -/
def artB : CodeArtifact := { name := "b", sourceCode := "sb" }

/-- A filesystem environment in which both `rm` and `mkdir` succeed. -/
def ienvOk : InitEnv := { rmResult := Except.ok (), mkdirResult := Except.ok () }

/-- A filesystem environment in which the recursive delete fails. -/
def ienvRmFail : InitEnv :=
  { rmResult := Except.error errStorage, mkdirResult := Except.ok () }

/-- The enriched error `prepare` returns for `slotInitialized` under
`envPkgFail`: the collaborator's build error with the
`[CachedSandbox#prepare]` context entry appended. -/
def eWit : Err :=
  enrichErrorContext errBuild "[CachedSandbox#prepare]"
    (prepareContextValue
      { key := "k"
        state := CachedSandboxState.INITIALIZED
        activeSandboxCount := 1
        lastUsedAt := 7
        dirExists := true } [] [])

lemma isErr_false_iff (r : Except Err Unit) : isErr r = false ↔ r = Except.ok () := by
  cases r with
  | error e => simp [isErr]
  | ok u => cases u; simp [isErr]

lemma isErr_true_iff (r : Except Err Unit) : isErr r = true ↔ ∃ e, r = Except.error e := by
  cases r with
  | error e => simp [isErr]
  | ok u => simp [isErr]

lemma prepare_created_eq (s : Slot) (env : PrepareEnv) (pieces : List Piece)
    (c : Option (List CodeArtifact)) (hs : s.state = CachedSandboxState.CREATED) :
    prepare s env pieces c =
      (Except.error
        (enrichErrorContext { kind := ErrKind.notInitialized, ctx := [] }
          "[CachedSandbox#prepare]" (prepareContextValue s pieces (c.getD []))),
        s, []) := by
  simp [prepare, prepareInner, hs]

lemma prepare_ready_eq (s : Slot) (env : PrepareEnv) (pieces : List Piece)
    (c : Option (List CodeArtifact)) (hs : s.state = CachedSandboxState.READY) :
    prepare s env pieces c =
      (Except.ok (),
        { s with activeSandboxCount := s.activeSandboxCount + 1, lastUsedAt := env.now },
        []) := by
  simp [prepare, prepareInner, hs]

lemma prepare_eq_inner (s : Slot) (env : PrepareEnv) (pieces : List Piece)
    (c : Option (List CodeArtifact)) :
    (prepare s env pieces c).2.1 = (prepareInner s env pieces (c.getD [])).2.1 ∧
    (prepare s env pieces c).2.2 = (prepareInner s env pieces (c.getD [])).2.2 ∧
    isErr (prepare s env pieces c).1 = isErr (prepareInner s env pieces (c.getD [])).1 := by
  rcases h : prepareInner s env pieces (c.getD []) with ⟨r, s2, evs⟩
  cases r <;> simp [prepare, h, isErr]

lemma prepareInner_initialized_char (s : Slot) (env : PrepareEnv) (pieces : List Piece)
    (codeSteps : List CodeArtifact) (hs : s.state = CachedSandboxState.INITIALIZED) :
    (prepareInner s env pieces codeSteps).2.1 =
      (if buildOk env codeSteps then
        { s with state := CachedSandboxState.READY,
                 activeSandboxCount := s.activeSandboxCount + 1,
                 lastUsedAt := env.now }
      else
        { s with activeSandboxCount := s.activeSandboxCount + 1,
                 lastUsedAt := env.now }) ∧
    isErr (prepareInner s env pieces codeSteps).1 = !buildOk env codeSteps := by
  rcases hp : env.pkgInit with e | u
  · simp [prepareInner, hs, hp, buildOk, isErr]
  · rcases hi : env.pieceInstall with e | u
    · simp [prepareInner, hs, hp, hi, buildOk, isErr]
    · rcases he : env.engineInstall with e | u
      · simp [prepareInner, hs, hp, hi, he, buildOk, isErr]
      · rcases hb : (promiseAll (codeSteps.map env.codeBuild)).2 with e | u
        · simp [prepareInner, hs, hp, hi, he, buildCodeArchives, hb, buildOk, isErr]
        · simp [prepareInner, hs, hp, hi, he, buildCodeArchives, hb, buildOk, isErr]

lemma prepare_initialized_ok_eq (s : Slot) (env : PrepareEnv) (pieces : List Piece)
    (c : Option (List CodeArtifact)) (hs : s.state = CachedSandboxState.INITIALIZED)
    (hok : buildOk env (c.getD []) = true) :
    prepare s env pieces c =
      (Except.ok (),
        { s with state := CachedSandboxState.READY,
                 activeSandboxCount := s.activeSandboxCount + 1,
                 lastUsedAt := env.now },
        fullTrace s pieces (c.getD [])) := by
  have hok4 := hok
  simp only [buildOk, Bool.and_eq_true, Bool.not_eq_true'] at hok4
  obtain ⟨⟨⟨hp, hi⟩, he⟩, hb⟩ := hok4
  rw [isErr_false_iff] at hp hi he hb
  simp [prepare, prepareInner, hs, hp, hi, he, buildCodeArchives, hb, fullTrace,
    Slot.path]

lemma prepare_initialized_fail_eq (s : Slot) (env : PrepareEnv) (pieces : List Piece)
    (c : Option (List CodeArtifact)) (hs : s.state = CachedSandboxState.INITIALIZED)
    (hbad : buildOk env (c.getD []) = false) :
    (prepare s env pieces c).2.1 =
      { s with activeSandboxCount := s.activeSandboxCount + 1, lastUsedAt := env.now } ∧
    isErr (prepare s env pieces c).1 = true := by
  obtain ⟨h1, _, h3⟩ := prepare_eq_inner s env pieces c
  obtain ⟨h4, h5⟩ := prepareInner_initialized_char s env pieces (c.getD []) hs
  refine ⟨?_, ?_⟩
  · rw [h1, h4, if_neg]
    simp [hbad]
  · rw [h3, h5, hbad]
    rfl

lemma state_not_created_not_ready (s : Slot)
    (h1 : s.state ≠ CachedSandboxState.CREATED)
    (h2 : s.state ≠ CachedSandboxState.READY) :
    s.state = CachedSandboxState.INITIALIZED := by
  cases h : s.state <;> simp_all

lemma init_not_created_eq (s : Slot) (env : InitEnv)
    (hs : s.state ≠ CachedSandboxState.CREATED) :
    init s env = (Except.ok (), s) := by
  simp [init, hs]

lemma init_created_ok_eq (s : Slot) (env : InitEnv)
    (hs : s.state = CachedSandboxState.CREATED)
    (hrm : env.rmResult = Except.ok ()) (hmk : env.mkdirResult = Except.ok ()) :
    init s env =
      (Except.ok (),
        { s with dirExists := true, state := CachedSandboxState.INITIALIZED }) := by
  simp [init, hs, hrm, hmk]

lemma init_fields_fixed (s : Slot) (env : InitEnv) :
    (init s env).2.lastUsedAt = s.lastUsedAt ∧
    (init s env).2.activeSandboxCount = s.activeSandboxCount ∧
    (init s env).2.key = s.key := by
  unfold init
  split
  · simp
  · rcases env.rmResult with e | u
    · simp
    · rcases env.mkdirResult with e | u <;> simp

lemma decrement_fields_fixed (s : Slot) :
    (decrementActiveSandboxCount s).lastUsedAt = s.lastUsedAt ∧
    (decrementActiveSandboxCount s).state = s.state ∧
    (decrementActiveSandboxCount s).key = s.key := by
  unfold decrementActiveSandboxCount
  split <;> simp

lemma prepare_count_cases (s : Slot) (env : PrepareEnv) (pieces : List Piece)
    (c : Option (List CodeArtifact)) :
    (prepare s env pieces c).2.1.activeSandboxCount = s.activeSandboxCount ∨
    (prepare s env pieces c).2.1.activeSandboxCount = s.activeSandboxCount + 1 := by
  by_cases hs : s.state = CachedSandboxState.CREATED
  · left
    rw [prepare_created_eq s env pieces c hs]
  · right
    by_cases hr : s.state = CachedSandboxState.READY
    · rw [prepare_ready_eq s env pieces c hr]
    · have hi := state_not_created_not_ready s hs hr
      obtain ⟨h1, _⟩ := prepare_eq_inner s env pieces c
      obtain ⟨h4, _⟩ := prepareInner_initialized_char s env pieces (c.getD []) hi
      rw [h1, h4]
      split <;> rfl

lemma stepOp_count_nonneg (s : Slot) (op : Op) (h : 0 ≤ s.activeSandboxCount) :
    0 ≤ (stepOp s op).activeSandboxCount := by
  cases op with
  | opInit env =>
    have h2 := (init_fields_fixed s env).2.1
    show 0 ≤ (init s env).2.activeSandboxCount
    omega
  | opPrepare env pieces c =>
    have h2 := prepare_count_cases s env pieces c
    show 0 ≤ (prepare s env pieces c).2.1.activeSandboxCount
    omega
  | opRelease =>
    show 0 ≤ (decrementActiveSandboxCount s).activeSandboxCount
    unfold decrementActiveSandboxCount
    split
    · exact h
    · rename_i hne
      show 0 ≤ s.activeSandboxCount - 1
      omega

lemma runOps_count_nonneg (ops : List Op) : ∀ s : Slot, 0 ≤ s.activeSandboxCount →
    0 ≤ (runOps s ops).activeSandboxCount := by
  induction ops with
  | nil => exact fun s h => h
  | cons op rest ih => exact fun s h => ih (stepOp s op) (stepOp_count_nonneg s op h)

lemma runOps_no_prepare_lastUsedAt (ops : List Op) : ∀ s : Slot,
    (∀ op ∈ ops, isPrepareOp op = false) → (runOps s ops).lastUsedAt = s.lastUsedAt := by
  induction ops with
  | nil => exact fun s _ => rfl
  | cons op rest ih =>
    intro s h
    have hrest : ∀ op2 ∈ rest, isPrepareOp op2 = false :=
      fun op2 hm => h op2 (List.mem_cons_of_mem op hm)
    have hstep : (stepOp s op).lastUsedAt = s.lastUsedAt := by
      cases op with
      | opInit env => exact (init_fields_fixed s env).1
      | opPrepare env p c =>
        have := h (Op.opPrepare env p c) (List.mem_cons_self _ _)
        simp [isPrepareOp] at this
      | opRelease => exact (decrement_fields_fixed s).1
    exact (ih (stepOp s op) hrest).trans hstep

lemma prepare_build_error_eq (s : Slot) (env : PrepareEnv) (pieces : List Piece)
    (codeSteps : List CodeArtifact) (e0 : Err)
    (hs : s.state = CachedSandboxState.INITIALIZED)
    (hp : env.pkgInit = Except.ok ()) (hi : env.pieceInstall = Except.ok ())
    (he : env.engineInstall = Except.ok ())
    (hb : (promiseAll (codeSteps.map env.codeBuild)).2 = Except.error e0) :
    prepare s env pieces (some codeSteps) =
      (Except.error (enrichErrorContext e0 "[CachedSandbox#prepare]"
          (prepareContextValue
            { s with activeSandboxCount := s.activeSandboxCount + 1,
                     lastUsedAt := env.now }
            pieces codeSteps)),
        { s with activeSandboxCount := s.activeSandboxCount + 1,
                 lastUsedAt := env.now },
        fullTrace s pieces codeSteps) := by
  simp [prepare, prepareInner, hs, hp, hi, he, buildCodeArchives, hb, fullTrace,
    Slot.path]

lemma earliestRejection_some_err (jobs : List BuildOutcome) :
    ∀ k : BuildOutcome, earliestRejection jobs = some k →
      ∃ e, k.result = Except.error e := by
  induction jobs with
  | nil => intro k h; simp [earliestRejection] at h
  | cons j rest ih =>
    intro k h
    rcases hr : j.result with e | u
    · rcases hrec : earliestRejection rest with _ | k2
      · simp only [earliestRejection, hr, hrec] at h
        obtain rfl := Option.some.inj h
        exact ⟨e, hr⟩
      · obtain ⟨e2, he2⟩ := ih k2 hrec
        simp only [earliestRejection, hr, hrec] at h
        split at h
        · obtain rfl := Option.some.inj h
          exact ⟨e, hr⟩
        · obtain rfl := Option.some.inj h
          exact ⟨e2, he2⟩
    · simp only [earliestRejection, hr] at h
      exact ih k h

lemma earliestRejection_ne_none (jobs : List BuildOutcome)
    (hb : ∃ j ∈ jobs, isErr j.result = true) :
    earliestRejection jobs ≠ none := by
  induction jobs with
  | nil => simp at hb
  | cons j rest ih =>
    rcases hb with ⟨j2, hmem, herr⟩
    rcases List.mem_cons.mp hmem with rfl | hmem2
    · rw [isErr_true_iff] at herr
      obtain ⟨e, hre⟩ := herr
      rcases hrec : earliestRejection rest with _ | k2
      · simp [earliestRejection, hre, hrec]
      · simp only [earliestRejection, hre, hrec]
        split <;> simp
    · have hne := ih ⟨j2, hmem2, herr⟩
      rcases hrec : earliestRejection rest with _ | k2
      · exact absurd hrec hne
      · rcases hr : j.result with e | u
        · simp only [earliestRejection, hr, hrec]
          split <;> simp
        · simp [earliestRejection, hr, hrec]

lemma prepare_error_shape (s : Slot) (env : PrepareEnv) (pieces : List Piece)
    (c : Option (List CodeArtifact)) (e : Err)
    (he : (prepare s env pieces c).1 = Except.error e) :
    ∃ e0, e = enrichErrorContext e0 "[CachedSandbox#prepare]"
        (prepareContextValue (prepare s env pieces c).2.1 pieces (c.getD [])) := by
  rcases h2 : prepareInner s env pieces (c.getD []) with ⟨r, s2, evs⟩
  cases r with
  | ok u => simp [prepare, h2] at he
  | error e0 =>
    refine ⟨e0, ?_⟩
    simp only [prepare, h2] at he ⊢
    injection he with h3
    exact h3.symm

/-- C4: for every slot in state `Created`, every `Prepare` call fails with the
not-initialized error and leaves `activeBorrowers`, `lastUsedAt` and `state`
exactly as they were (the returned slot is unchanged) and invokes no
collaborator (the event trace is empty). -/
theorem prepare_on_created_fails_and_preserves (s : Slot) (env : PrepareEnv)
    (pieces : List Piece) (c : Option (List CodeArtifact))
    (hs : s.state = CachedSandboxState.CREATED) :
    (∃ e, (prepare s env pieces c).1 = Except.error e ∧
      e.kind = ErrKind.notInitialized) ∧
    (prepare s env pieces c).2.1 = s ∧
    (prepare s env pieces c).2.2 = [] := by
  rw [prepare_created_eq s env pieces c hs]
  exact ⟨⟨_, rfl, rfl⟩, rfl, rfl⟩

/-- C4 witness: instantiated on a freshly constructed slot. -/
theorem prepare_on_created_fails_and_preserves_witness :
    (∃ e, (prepare slotCreated envAllOk [] none).1 = Except.error e ∧
      e.kind = ErrKind.notInitialized) ∧
    (prepare slotCreated envAllOk [] none).2.1 = slotCreated ∧
    (prepare slotCreated envAllOk [] none).2.2 = [] :=
  prepare_on_created_fails_and_preserves slotCreated envAllOk [] none rfl

/-- C8: `init` is idempotent.  If a first `init` on a `Created` slot succeeds
then a second `init` (under any filesystem environment) returns success and
changes nothing; after the first call the directory exists and the state is
`Initialized`; and in general `init` on any slot whose state is not `Created`
returns success immediately and leaves the slot untouched. -/
theorem init_idempotent (s : Slot) (e1 e2 : InitEnv)
    (hs : s.state = CachedSandboxState.CREATED)
    (h1 : (init s e1).1 = Except.ok ()) :
    init (init s e1).2 e2 = (Except.ok (), (init s e1).2) ∧
    (init s e1).2.state = CachedSandboxState.INITIALIZED ∧
    (init s e1).2.dirExists = true ∧
    (∀ t : Slot, t.state ≠ CachedSandboxState.CREATED →
      init t e2 = (Except.ok (), t)) := by
  rcases hrm : e1.rmResult with e | u
  · exfalso
    simp [init, hs, hrm] at h1
  · cases u
    rcases hmk : e1.mkdirResult with e | u2
    · exfalso
      simp [init, hs, hrm, hmk] at h1
    · cases u2
      have heq := init_created_ok_eq s e1 hs hrm hmk
      rw [heq]
      refine ⟨?_, rfl, rfl, fun t ht => init_not_created_eq t e2 ht⟩
      exact init_not_created_eq _ e2 (by simp)

/-- C8 witness: instantiated on a freshly constructed slot with a succeeding
filesystem environment. -/
theorem init_idempotent_witness :
    init (init slotCreated ienvOk).2 ienvOk = (Except.ok (), (init slotCreated ienvOk).2) ∧
    (init slotCreated ienvOk).2.state = CachedSandboxState.INITIALIZED ∧
    (init slotCreated ienvOk).2.dirExists = true ∧
    init slotReadyTwo ienvOk = (Except.ok (), slotReadyTwo) := by
  obtain ⟨h1, h2, h3, h4⟩ := init_idempotent slotCreated ienvOk ienvOk rfl rfl
  exact ⟨h1, h2, h3, h4 slotReadyTwo (by decide)⟩

/-- C9: the `codeSteps` argument of `prepare` is optional and defaults to the
empty list: a call with `codeSteps` omitted is literally the same call as one
with an explicitly empty list, and its trace launches no code-build task. -/
theorem prepare_codeSteps_optional (s : Slot) (env : PrepareEnv)
    (pieces : List Piece) :
    prepare s env pieces none = prepare s env pieces (some []) ∧
    ((prepare s env pieces none).2.2.all fun ev => !isCodeBuildEv ev) = true := by
  refine ⟨rfl, ?_⟩
  by_cases hs : s.state = CachedSandboxState.CREATED
  · rw [prepare_created_eq s env pieces none hs]
    rfl
  · by_cases hr : s.state = CachedSandboxState.READY
    · rw [prepare_ready_eq s env pieces none hr]
      rfl
    · have hi := state_not_created_not_ready s hs hr
      rcases hp : env.pkgInit with e | u
      · simp [prepare, prepareInner, hi, hp, isCodeBuildEv]
      · rcases hpc : env.pieceInstall with e | u2
        · simp [prepare, prepareInner, hi, hp, hpc, isCodeBuildEv]
        · rcases he : env.engineInstall with e | u3
          · simp [prepare, prepareInner, hi, hp, hpc, he, isCodeBuildEv]
          · simp [prepare, prepareInner, hi, hp, hpc, he, buildCodeArchives,
              promiseAll, earliestRejection, maxFinish, isCodeBuildEv]

/-- C6: on an `Initialized` slot the collaborators run in the exact order
dependency-context init, package install, engine install, code-artifact
builds (the trace is always an initial segment of that sequence, and is the
whole sequence when all steps succeed); the state becomes `Ready` exactly
when all four steps succeed; and on a `Ready` slot the call succeeds with an
empty trace (no collaborator invoked). -/
theorem prepare_build_sequence (s : Slot) (env : PrepareEnv) (pieces : List Piece)
    (c : Option (List CodeArtifact)) :
    (s.state = CachedSandboxState.INITIALIZED →
      (∃ n, (prepare s env pieces c).2.2 = (fullTrace s pieces (c.getD [])).take n) ∧
      (buildOk env (c.getD []) = true →
        (prepare s env pieces c).1 = Except.ok () ∧
        (prepare s env pieces c).2.2 = fullTrace s pieces (c.getD []) ∧
        (prepare s env pieces c).2.1.state = CachedSandboxState.READY) ∧
      (buildOk env (c.getD []) = false →
        (prepare s env pieces c).2.1.state = CachedSandboxState.INITIALIZED)) ∧
    (s.state = CachedSandboxState.READY →
      (prepare s env pieces c).1 = Except.ok () ∧
      (prepare s env pieces c).2.2 = []) := by
  refine ⟨fun hs => ⟨?_, fun hok => ?_, fun hbad => ?_⟩, fun hr => ?_⟩
  · rcases hp : env.pkgInit with e | u
    · exact ⟨1, by simp [prepare, prepareInner, hs, hp, fullTrace, Slot.path]⟩
    · rcases hpc : env.pieceInstall with e | u2
      · exact ⟨2, by simp [prepare, prepareInner, hs, hp, hpc, fullTrace, Slot.path]⟩
      · rcases he : env.engineInstall with e | u3
        · exact ⟨3, by simp [prepare, prepareInner, hs, hp, hpc, he, fullTrace, Slot.path]⟩
        · refine ⟨(fullTrace s pieces (c.getD [])).length, ?_⟩
          rcases hb : (promiseAll ((c.getD []).map env.codeBuild)).2 with e | u4
          · simp [prepare, prepareInner, hs, hp, hpc, he, buildCodeArchives, hb,
              fullTrace, Slot.path, List.take_length]
          · simp [prepare, prepareInner, hs, hp, hpc, he, buildCodeArchives, hb,
              fullTrace, Slot.path, List.take_length]
  · rw [prepare_initialized_ok_eq s env pieces c hs hok]
    exact ⟨rfl, rfl, rfl⟩
  · obtain ⟨h1, _⟩ := prepare_initialized_fail_eq s env pieces c hs hbad
    rw [h1]
    exact hs
  · rw [prepare_ready_eq s env pieces c hr]
    exact ⟨rfl, rfl⟩

/-- C6 witness: a first `prepare` on an initialized slot with every
collaborator succeeding runs the full ordered sequence and reaches `Ready`;
a `prepare` on a ready slot succeeds without invoking anything. -/
theorem prepare_build_sequence_witness :
    ((prepare slotInitialized envAllOk ["p1"] (some [artA])).1 = Except.ok () ∧
      (prepare slotInitialized envAllOk ["p1"] (some [artA])).2.2 =
        fullTrace slotInitialized ["p1"] [artA] ∧
      (prepare slotInitialized envAllOk ["p1"] (some [artA])).2.1.state =
        CachedSandboxState.READY) ∧
    (prepare slotReadyTwo envAllOk [] none).1 = Except.ok () ∧
    (prepare slotReadyTwo envAllOk [] none).2.2 = [] := by
  refine ⟨?_, (prepare_build_sequence slotReadyTwo envAllOk [] none).2 rfl⟩
  exact ((prepare_build_sequence slotInitialized envAllOk ["p1"]
    (some [artA])).1 rfl).2.1 (by decide)

/-- C3: a `prepare` call on an `Initialized` slot in which some
build-sequence step fails returns an error, leaves the state `Initialized`
(not `Created`), keeps the borrower increment and the `lastUsedAt` update,
and a subsequent `prepare` under a fully succeeding environment re-runs the
entire build sequence and reaches `Ready`. -/
theorem prepare_failure_preserves (s : Slot) (env : PrepareEnv)
    (pieces : List Piece) (c : Option (List CodeArtifact))
    (hs : s.state = CachedSandboxState.INITIALIZED)
    (hbad : buildOk env (c.getD []) = false) :
    isErr (prepare s env pieces c).1 = true ∧
    (prepare s env pieces c).2.1.state = CachedSandboxState.INITIALIZED ∧
    (prepare s env pieces c).2.1.activeSandboxCount = s.activeSandboxCount + 1 ∧
    (prepare s env pieces c).2.1.lastUsedAt = env.now ∧
    (∀ (env2 : PrepareEnv) (pieces2 : List Piece) (c2 : Option (List CodeArtifact)),
      buildOk env2 (c2.getD []) = true →
      (prepare (prepare s env pieces c).2.1 env2 pieces2 c2).1 = Except.ok () ∧
      (prepare (prepare s env pieces c).2.1 env2 pieces2 c2).2.2 =
        fullTrace (prepare s env pieces c).2.1 pieces2 (c2.getD []) ∧
      (prepare (prepare s env pieces c).2.1 env2 pieces2 c2).2.1.state =
        CachedSandboxState.READY) := by
  obtain ⟨h1, h2⟩ := prepare_initialized_fail_eq s env pieces c hs hbad
  have hstate : (prepare s env pieces c).2.1.state = CachedSandboxState.INITIALIZED := by
    rw [h1]
    exact hs
  refine ⟨h2, hstate, by rw [h1], by rw [h1], fun env2 pieces2 c2 hok => ?_⟩
  rw [prepare_initialized_ok_eq _ env2 pieces2 c2 hstate hok]
  exact ⟨rfl, rfl, rfl⟩

/-- C3 witness: the dependency-context init fails; the failed call keeps the
borrower counted and the state `Initialized`, and the retry succeeds. -/
theorem prepare_failure_preserves_witness :
    isErr (prepare slotInitialized envPkgFail [] none).1 = true ∧
    (prepare slotInitialized envPkgFail [] none).2.1.state =
      CachedSandboxState.INITIALIZED ∧
    (prepare slotInitialized envPkgFail [] none).2.1.activeSandboxCount =
      slotInitialized.activeSandboxCount + 1 ∧
    (prepare (prepare slotInitialized envPkgFail [] none).2.1 envAllOk [] none).1 =
      Except.ok () := by
  obtain ⟨h1, h2, h3, h4, h5⟩ :=
    prepare_failure_preserves slotInitialized envPkgFail [] none rfl (by decide)
  exact ⟨h1, h2, h3, (h5 envAllOk [] none (by decide)).1⟩

/-- C7: `activeBorrowers` never goes negative along any sequence of
operations from a fresh slot; a release at zero is a no-op and a release at a
positive count decrements it by exactly one. -/
theorem activeBorrowers_nonneg (key : String) (ctorNow : Nat) (d : Bool)
    (ops : List Op) :
    0 ≤ (runOps (mkSlot key ctorNow d) ops).activeSandboxCount ∧
    (∀ s : Slot, s.activeSandboxCount = 0 → decrementActiveSandboxCount s = s) ∧
    (∀ s : Slot, 0 < s.activeSandboxCount →
      (decrementActiveSandboxCount s).activeSandboxCount =
        s.activeSandboxCount - 1) := by
  refine ⟨runOps_count_nonneg ops (mkSlot key ctorNow d) (by simp [mkSlot]),
    fun s h => ?_, fun s h => ?_⟩
  · unfold decrementActiveSandboxCount
    rw [if_pos h]
  · unfold decrementActiveSandboxCount
    rw [if_neg (by omega)]

/-- C7 witness: two releases on a fresh slot (more releases than successful
prepares) keep the count non-negative; release is a no-op at zero and a
decrement at a positive count. -/
theorem activeBorrowers_nonneg_witness :
    0 ≤ (runOps (mkSlot "k" 0 false) [Op.opRelease, Op.opRelease]).activeSandboxCount ∧
    decrementActiveSandboxCount slotInitialized = slotInitialized ∧
    (decrementActiveSandboxCount slotReadyTwo).activeSandboxCount =
      slotReadyTwo.activeSandboxCount - 1 := by
  obtain ⟨h1, h2, h3⟩ := activeBorrowers_nonneg "k" 0 false [Op.opRelease, Op.opRelease]
  exact ⟨h1, h2 slotInitialized rfl, h3 slotReadyTwo (by decide)⟩

/-- C10: `lastUsedAt` is initialized to the construction-time clock reading,
and any sequence of operations containing no `prepare` call leaves it at that
construction time, so an external reader always sees a valid timestamp. -/
theorem lastUsedAt_construction (key : String) (ctorNow : Nat) (d : Bool)
    (ops : List Op) (h : ∀ op ∈ ops, isPrepareOp op = false) :
    (mkSlot key ctorNow d).lastUsedAtFn = ctorNow ∧
    (runOps (mkSlot key ctorNow d) ops).lastUsedAtFn = ctorNow := by
  refine ⟨rfl, ?_⟩
  have h2 := runOps_no_prepare_lastUsedAt ops (mkSlot key ctorNow d) h
  simpa [Slot.lastUsedAtFn, mkSlot] using h2

/-- C10 witness: after an `init` and a `release` (no `prepare`), `lastUsedAt`
still reads the construction time. -/
theorem lastUsedAt_construction_witness :
    (mkSlot "k" 3 false).lastUsedAtFn = 3 ∧
    (runOps (mkSlot "k" 3 false) [Op.opInit ienvOk, Op.opRelease]).lastUsedAtFn = 3 :=
  lastUsedAt_construction "k" 3 false [Op.opInit ienvOk, Op.opRelease] (by decide)

/-- C1 counterexample: on an initialized slot with two code artifacts, where
artifact `b` rejects at time 1 and artifact `a` fulfills at time 5, the
`prepare` call fails and both tasks were launched, but `Promise.all` settles
at time 1 — before the build of `a` completes — so not every launched build
task is awaited to completion before the failure is reported. -/
theorem prepare_not_wait_for_all_cex :
    isErr (prepare slotInitialized envBuildFail [] (some [artA, artB])).1 = true ∧
    (prepare slotInitialized envBuildFail [] (some [artA, artB])).2.2 =
      fullTrace slotInitialized [] [artA, artB] ∧
    ¬ awaitedAll ([artA, artB].map envBuildFail.codeBuild)
        (promiseAll ([artA, artB].map envBuildFail.codeBuild)).1 := by
  refine ⟨by decide, by decide, ?_⟩
  intro h
  have h2 := h (envBuildFail.codeBuild artA) (by decide)
  revert h2
  decide

/-- C1 (amended): on an `Initialized` slot with succeeding installs and at
least one rejecting code-artifact build, every build task is launched (one
launch event per artifact appears in the trace), the call fails with the
earliest-settling rejection — fail-fast, without awaiting still-running
builds — the state stays `Initialized`, and the borrower is counted. -/
theorem prepare_build_failure_failfast (s : Slot) (env : PrepareEnv)
    (pieces : List Piece) (codeSteps : List CodeArtifact)
    (hs : s.state = CachedSandboxState.INITIALIZED)
    (hp : env.pkgInit = Except.ok ()) (hi : env.pieceInstall = Except.ok ())
    (he : env.engineInstall = Except.ok ())
    (hb : ∃ j ∈ codeSteps.map env.codeBuild, isErr j.result = true) :
    isErr (prepare s env pieces (some codeSteps)).1 = true ∧
    (prepare s env pieces (some codeSteps)).2.2 = fullTrace s pieces codeSteps ∧
    (prepare s env pieces (some codeSteps)).2.1.state =
      CachedSandboxState.INITIALIZED ∧
    (prepare s env pieces (some codeSteps)).2.1.activeSandboxCount =
      s.activeSandboxCount + 1 ∧
    (∃ k, earliestRejection (codeSteps.map env.codeBuild) = some k ∧
      ∃ e0, k.result = Except.error e0 ∧
        (prepare s env pieces (some codeSteps)).1 =
          Except.error (enrichErrorContext e0 "[CachedSandbox#prepare]"
            (prepareContextValue (prepare s env pieces (some codeSteps)).2.1
              pieces codeSteps))) := by
  have hne := earliestRejection_ne_none (codeSteps.map env.codeBuild) hb
  rcases hk : earliestRejection (codeSteps.map env.codeBuild) with _ | k
  · exact absurd hk hne
  · obtain ⟨e0, he0⟩ := earliestRejection_some_err (codeSteps.map env.codeBuild) k hk
    have hpa : (promiseAll (codeSteps.map env.codeBuild)).2 = Except.error e0 := by
      simp [promiseAll, hk, he0]
    have heq := prepare_build_error_eq s env pieces codeSteps e0 hs hp hi he hpa
    rw [heq]
    exact ⟨rfl, rfl, hs, rfl, k, rfl, e0, he0, rfl⟩

/-- C1 witness: instantiated with the two artifacts of the counterexample
environment. -/
theorem prepare_build_failure_failfast_witness :
    isErr (prepare slotInitialized envBuildFail [] (some [artA, artB])).1 = true ∧
    (prepare slotInitialized envBuildFail [] (some [artA, artB])).2.1.state =
      CachedSandboxState.INITIALIZED := by
  have h := prepare_build_failure_failfast slotInitialized envBuildFail []
    [artA, artB] rfl rfl rfl rfl (by decide)
  exact ⟨h.1, h.2.2.1⟩

/-- C2 counterexample: a `prepare` call that fails (dependency-context init
rejects) still changes the value returned by `lastUsedAt` — refuting the
claim that only a successful `Prepare` call changes it. -/
theorem lastUsedAt_changed_by_failed_prepare_cex :
    isErr (prepare slotInitialized envPkgFail [] none).1 = true ∧
    (prepare slotInitialized envPkgFail [] none).2.1.lastUsedAtFn ≠
      slotInitialized.lastUsedAtFn := by
  constructor
  · decide
  · decide

/-- C2 (amended): `lastUsedAt` is set to the call-time clock reading by every
`prepare` call that passes the initialization check — whether or not the call
then succeeds — and is changed by no other operation (`init`, `release`, and
a `prepare` rejected by the initialization check all leave it unchanged). -/
theorem lastUsedAt_update_policy (s : Slot) (env : PrepareEnv) (ienv : InitEnv)
    (pieces : List Piece) (c : Option (List CodeArtifact)) :
    (init s ienv).2.lastUsedAtFn = s.lastUsedAtFn ∧
    (decrementActiveSandboxCount s).lastUsedAtFn = s.lastUsedAtFn ∧
    (s.state = CachedSandboxState.CREATED →
      (prepare s env pieces c).2.1.lastUsedAtFn = s.lastUsedAtFn) ∧
    (s.state ≠ CachedSandboxState.CREATED →
      (prepare s env pieces c).2.1.lastUsedAtFn = env.now) := by
  refine ⟨(init_fields_fixed s ienv).1, (decrement_fields_fixed s).1,
    fun hs => ?_, fun hs => ?_⟩
  · rw [prepare_created_eq s env pieces c hs]
  · by_cases hr : s.state = CachedSandboxState.READY
    · rw [prepare_ready_eq s env pieces c hr]
      rfl
    · have hi := state_not_created_not_ready s hs hr
      obtain ⟨h1, _⟩ := prepare_eq_inner s env pieces c
      obtain ⟨h4, _⟩ := prepareInner_initialized_char s env pieces (c.getD []) hi
      rw [show (prepare s env pieces c).2.1.lastUsedAtFn =
        (prepare s env pieces c).2.1.lastUsedAt from rfl, h1, h4]
      split <;> rfl

/-- C2 witness: the two `prepare` clauses instantiated concretely. -/
theorem lastUsedAt_update_policy_witness :
    (prepare slotCreated envAllOk [] none).2.1.lastUsedAtFn =
      slotCreated.lastUsedAtFn ∧
    (prepare slotInitialized envAllOk [] none).2.1.lastUsedAtFn = envAllOk.now := by
  obtain ⟨_, _, h3, _⟩ :=
    lastUsedAt_update_policy slotCreated envAllOk ienvOk [] none
  obtain ⟨_, _, _, h4⟩ :=
    lastUsedAt_update_policy slotInitialized envAllOk ienvOk [] none
  exact ⟨h3 rfl, h4 (by decide)⟩

/-- C5 counterexample: a storage failure of the directory delete during
`init` surfaces to the caller exactly as the collaborator threw it, with an
empty context list — no contextual diagnostic data is attached (an enriched
error always carries at least one context entry), refuting the claim that
errors arising during `Initialize` are enriched. -/
theorem init_error_not_enriched_cex :
    (init slotCreated ienvRmFail).1 = Except.error errStorage ∧
    errStorage.ctx = [] ∧
    ∀ (e0 : Err) (k : String) (v : PrepareCtx),
      errStorage ≠ enrichErrorContext e0 k v := by
  refine ⟨rfl, rfl, fun e0 k v h => ?_⟩
  have h2 : errStorage.ctx = e0.ctx ++ [(k, v)] := by rw [h]; rfl
  simp [errStorage] at h2

/-- C5 (amended): every error thrown inside `prepare` — from a collaborator
or from the initialization check — is rethrown enriched with the
`[CachedSandbox#prepare]` diagnostic context, its kind unchanged; errors from
the filesystem collaborators during `init` are propagated to the caller
unchanged (same error value, hence same kind, never swallowed) but without
enrichment. -/
theorem error_propagation_policy (s : Slot) (env : PrepareEnv) (ienv : InitEnv)
    (pieces : List Piece) (c : Option (List CodeArtifact)) :
    (∀ e, (prepare s env pieces c).1 = Except.error e →
      ∃ e0, e = enrichErrorContext e0 "[CachedSandbox#prepare]"
          (prepareContextValue (prepare s env pieces c).2.1 pieces (c.getD [])) ∧
        e.kind = e0.kind) ∧
    (∀ e, (init s ienv).1 = Except.error e →
      ienv.rmResult = Except.error e ∨ ienv.mkdirResult = Except.error e) ∧
    (s.state = CachedSandboxState.CREATED → ∀ e0,
      ienv.rmResult = Except.error e0 → (init s ienv).1 = Except.error e0) := by
  refine ⟨fun e he => ?_, fun e he => ?_, fun hs e0 hrm => ?_⟩
  · obtain ⟨e0, he0⟩ := prepare_error_shape s env pieces c e he
    exact ⟨e0, he0, by rw [he0]; rfl⟩
  · by_cases hs : s.state = CachedSandboxState.CREATED
    · rcases hrm : ienv.rmResult with e2 | u
      · left
        have hinit : (init s ienv).1 = Except.error e2 := by
          simp [init, hs, hrm]
        exact hinit.symm.trans he
      · cases u
        rcases hmk : ienv.mkdirResult with e2 | u2
        · right
          have hinit : (init s ienv).1 = Except.error e2 := by
            simp [init, hs, hrm, hmk]
          exact hinit.symm.trans he
        · cases u2
          exfalso
          rw [init_created_ok_eq s ienv hs hrm hmk] at he
          simp at he
    · rw [init_not_created_eq s ienv hs] at he
      simp at he
  · simp [init, hs, hrm]

/-- C5 witness: the concrete enriched build error returned by a failing
`prepare`, and the raw storage error passed through by a failing `init`. -/
theorem error_propagation_policy_witness :
    (∃ e0, eWit = enrichErrorContext e0 "[CachedSandbox#prepare]"
        (prepareContextValue (prepare slotInitialized envPkgFail [] none).2.1 [] []) ∧
      eWit.kind = e0.kind) ∧
    (ienvRmFail.rmResult = Except.error errStorage ∨
      ienvRmFail.mkdirResult = Except.error errStorage) ∧
    (init slotCreated ienvRmFail).1 = Except.error errStorage := by
  obtain ⟨h1, _, _⟩ :=
    error_propagation_policy slotInitialized envPkgFail ienvRmFail [] none
  obtain ⟨_, h2, h3⟩ :=
    error_propagation_policy slotCreated envPkgFail ienvRmFail [] none
  exact ⟨h1 eWit (by decide), h2 errStorage (by decide), h3 rfl errStorage rfl⟩
